import Mathlib

/-!
Verification development for the dmsg core: a shallow embedding of the
frame codec, dial-request verification, stream-ID allocation, port
manager and transport manager (from `types.go`, `port_manager.go` and
the transport manager source), with theorems settling the spec's claims.

Bytes are modelled as `Nat` (values < 256 by construction); machine
integers carry explicit `% 2^w` where Go performs a conversion.
-/

namespace Dmsg

/-! ## Frame codec (`types.go`)

`headerLen = 5`: fType (1 byte), chID (2 bytes), payLen (2 bytes),
all multi-byte fields big-endian. -/

def headerLen : Nat := 5

/-- maximum len of FWD payload (`math.MaxUint16`). -/
def maxFwdPayLen : Nat := 65535

/-- `binary.BigEndian.PutUint16`: the two big-endian bytes of a 16-bit value. -/
def putUint16BE (v : Nat) : List Nat := [v / 256 % 256, v % 256]

/-- `binary.BigEndian.Uint16`: reassemble a 16-bit value from two bytes. -/
def beUint16 (b0 b1 : Nat) : Nat := b0 * 256 + b1

/-- `Frame` is the dmsg data unit: a raw byte sequence. -/
abbrev Frame := List Nat

/-- `MakeFrame(ft, chID, pay)`: header (type byte, big-endian channel id,
big-endian `uint16(len(pay))`) followed by a copy of the payload.
The `% 65536` models Go's `uint16(len(pay))` conversion. -/
def MakeFrame (ft : Nat) (chID : Nat) (pay : List Nat) : Frame :=
  ft :: (putUint16BE chID ++ (putUint16BE (pay.length % 65536) ++ pay))

/-- `Frame.Type`: the frame's type byte `f[0]`. -/
def frameType (f : Frame) : Nat := f.getD 0 0

/-- `Frame.TpID`: big-endian `uint16` of `f[1:3]`. -/
def frameTpID (f : Frame) : Nat := beUint16 (f.getD 1 0) (f.getD 2 0)

/-- `Frame.PayLen`: the declared payload length, big-endian `uint16` of `f[3:5]`. -/
def framePayLen (f : Frame) : Nat := beUint16 (f.getD 3 0) (f.getD 4 0)

/-- `Frame.Pay`: the payload bytes `f[headerLen:]`. -/
def framePay (f : Frame) : List Nat := f.drop headerLen

/-- `Frame.Disassemble`: splits the frame into fields. -/
def Disassemble (f : Frame) : Nat × Nat × List Nat :=
  (frameType f, frameTpID f, framePay f)

/-- Result of `readFrame` (struct `disassembledFrame`; the Go field
`Type` is rendered `fType`). -/
structure disassembledFrame where
  fType : Nat
  TpID : Nat
  Pay : List Nat
deriving DecidableEq

/-- `readFrame(r)`: read `headerLen` bytes, parse `PayLen`, read exactly
that many payload bytes, and disassemble.  The reader is modelled as the
byte sequence it holds; `none` models a fatal short-read error of
`io.ReadFull`; on success the unread remainder of the reader is also
returned. -/
def readFrame (r : List Nat) : Option (Frame × disassembledFrame × List Nat) :=
  if r.length < headerLen then none
  else
    let hdr := r.take headerLen
    let payLen := framePayLen hdr
    let rest := r.drop headerLen
    if rest.length < payLen then none
    else
      let f := hdr ++ rest.take payLen
      some (f, ⟨frameType f, frameTpID f, framePay f⟩, rest.drop payLen)

/-! Frame types (`types.go` constants). -/

def OkType : Nat := 0x0
def RequestType : Nat := 0x1
def AcceptType : Nat := 0x2
def CloseType : Nat := 0x3
def FwdType : Nat := 0xa
def AckType : Nat := 0xb

/-- The sparse name table of `FrameType.String`: Go's
`[]string{RequestType: "REQUEST", ..., OkType: "OK"}` has length 12 and
empty strings at the unassigned indices 4..9. -/
def frameTypeNames : List String :=
  ["OK", "REQUEST", "ACCEPT", "CLOSE", "", "", "", "", "", "", "FWD", "ACK"]

/-- `FrameType.String()`: `UNKNOWN:<n>` when the value is out of the
table's range, otherwise the table entry. -/
def FrameTypeString (ft : Nat) : String :=
  if frameTypeNames.length ≤ ft then "UNKNOWN:" ++ toString ft
  else frameTypeNames.getD ft ""

/-- `writeAckFrame(w, id, offset)`: the frame written is an ACK frame whose
payload is the 2-byte big-endian encoding of `offset`. -/
def writeAckFrame (id : Nat) (offset : Nat) : Frame :=
  MakeFrame AckType id (putUint16BE offset)

/-- `disassembleAckPayload(p)`: the big-endian `uint16` of a 2-byte
payload; any other length is an error. -/
def disassembleAckPayload (p : List Nat) : Except String Nat :=
  if p.length ≠ 2 then Except.error "invalid ACK payload size"
  else Except.ok (beUint16 (p.getD 0 0) (p.getD 1 0))

/-! ## Cipher primitives

Modelled from the spec: the external cipher module's keys, signatures
and hashes are "opaque fixed-width byte strings; only equality,
null-check, sign, and verify are used".  Signature verification, SHA256
and the gob encoding are abstracted as function parameters. -/

/-- Modelled from the spec: a public key, an opaque fixed-width byte string. -/
structure PubKey where
  bytes : List Nat
deriving DecidableEq

/-- The zero value `cipher.PubKey{}` (33 zero bytes). -/
def nullPubKey : PubKey := ⟨List.replicate 33 0⟩

/-- Modelled from the spec: `PubKey.Null()` — equality with the zero value. -/
def PubKey.Null (pk : PubKey) : Bool := pk == nullPubKey

/-- Modelled from the spec: a signature, an opaque fixed-width byte string. -/
structure Sig where
  bytes : List Nat
deriving DecidableEq

/-- The zero value `cipher.Sig{}` (65 zero bytes). -/
def nullSig : Sig := ⟨List.replicate 65 0⟩

/-! ## Dial requests (`types.go`) -/

/-- `Addr`: a (public key, port) pair; the port is a `uint16`. -/
structure Addr where
  PK : PubKey
  Port : Nat
deriving DecidableEq

/-- Errors returned by `Verify` (the `ErrDialReq*` error values). -/
inductive DialReqError
  | ErrDialReqInvalidSrcPK
  | ErrDialReqInvalidDstPK
  | ErrDialReqInvalidSrcPort
  | ErrDialReqInvalidDstPort
  | ErrDialReqInvalidTimestamp
  | ErrDialReqInvalidSig
deriving DecidableEq

/-- `SessionDialRequest`: timestamp (i64 nanoseconds), the two public
keys, and a signature over the gob encoding with `Sig` zeroed. -/
structure SessionDialRequest where
  Timestamp : Int
  SrcPK : PubKey
  DstPK : PubKey
  Sig : Dmsg.Sig
deriving DecidableEq

/-- `SessionDialRequest.Hash()`: SHA256 of the gob encoding of the
request with a null signature.  `sha` and `gob` abstract
`cipher.SumSHA256` and `encodeGob`. -/
def SessionDialRequest.Hash (sha : List Nat → List Nat)
    (gob : SessionDialRequest → List Nat) (dr : SessionDialRequest) : List Nat :=
  sha (gob { dr with Sig := nullSig })

/-- `SessionDialRequest.Verify(lastTimestamp)`: rejects a null source
key, then a null destination key, then a non-increasing timestamp, then
a signature that does not verify under `SrcPK` over the gob encoding
with `Sig` zeroed; `none` models the `nil` return.  `verifyPK` abstracts
`cipher.VerifyPubKeySignedPayload` (true = verifies). -/
def SessionDialRequest.Verify (gob : SessionDialRequest → List Nat)
    (verifyPK : PubKey → Dmsg.Sig → List Nat → Bool)
    (dr : SessionDialRequest) (lastTimestamp : Int) : Option DialReqError :=
  if dr.SrcPK.Null then some .ErrDialReqInvalidSrcPK
  else if dr.DstPK.Null then some .ErrDialReqInvalidDstPK
  else if dr.Timestamp ≤ lastTimestamp then some .ErrDialReqInvalidTimestamp
  else if verifyPK dr.SrcPK dr.Sig (gob { dr with Sig := nullSig }) then none
  else some .ErrDialReqInvalidSig

/-- `StreamDialRequest`: timestamp, source and destination addresses,
noise handshake message, signature. -/
structure StreamDialRequest where
  Timestamp : Int
  SrcAddr : Addr
  DstAddr : Addr
  NoiseMsg : List Nat
  Sig : Dmsg.Sig
deriving DecidableEq

/-- `StreamDialRequest.Hash()`: SHA256 of the gob encoding of the
request with a null signature. -/
def StreamDialRequest.Hash (sha : List Nat → List Nat)
    (gob : StreamDialRequest → List Nat) (dr : StreamDialRequest) : List Nat :=
  sha (gob { dr with Sig := nullSig })

/-! ## Stream IDs (`types.go`) -/

/-- `isInitiatorID(tpID)`: determines whether the stream ID is of an
initiator (even) or responder (odd). -/
def isInitiatorID (tpID : Nat) : Bool := tpID % 2 == 0

/-- `randID(initiator)`: draw 2 random bytes, keep the big-endian
`uint16` if its parity matches, else redraw.  The random source
`cipher.RandByte(2)` is modelled as the list of byte pairs it yields;
`none` models exhausting the modelled draws (the Go loop would keep
drawing). -/
def randID (initiator : Bool) (draws : List (Nat × Nat)) : Option Nat :=
  match draws with
  | [] => none
  | (b0, b1) :: rest =>
    let id := beUint16 (b0 % 256) (b1 % 256)
    if (initiator && id % 2 == 0) || (!initiator && id % 2 != 0) then some id
    else randID initiator rest

/-! ## Port manager (`port_manager.go`) -/

def firstEphemeralPort : Nat := 49152
def lastEphemeralPort : Nat := 65535

/-- A listener, opaque for the port manager's purposes. -/
structure Listener where
  tag : Nat
deriving DecidableEq

/-- `PortManager`: the registry of listeners keyed by port, modelled as
an association list with Go-map lookup/update semantics. -/
structure PortManager where
  listeners : List (Nat × Listener)
deriving DecidableEq

/-- `PortManager.Listener(port)`: map lookup. -/
def PortManager.lookupListener (pm : PortManager) (port : Nat) : Option Listener :=
  (pm.listeners.find? (fun e => e.fst == port)).map (fun e => e.snd)

/-- `PortManager.AddListener(l, port)`: map insert (overwriting). -/
def PortManager.AddListener (pm : PortManager) (l : Listener) (port : Nat) : PortManager :=
  ⟨(port, l) :: pm.listeners.filter (fun e => e.fst != port)⟩

/-- `randomEphemeralPort()`: `uint16(firstEphemeralPort + rand.Intn(lastEphemeralPort-firstEphemeralPort))`.
The RNG draw is modelled by its contract: `r % (lastEphemeralPort - firstEphemeralPort)`
is a value of `rand.Intn(lastEphemeralPort - firstEphemeralPort)`; the
outer `% 65536` is Go's `uint16` conversion. -/
def randomEphemeralPort (r : Nat) : Nat :=
  (firstEphemeralPort + r % (lastEphemeralPort - firstEphemeralPort)) % 65536

/-- `NextEmptyEphemeralPort()`: draw random ephemeral ports until one is
not registered.  The RNG is modelled as the list of its draws; `none`
models exhausting the modelled draws (the Go loop would keep drawing). -/
def PortManager.NextEmptyEphemeralPort (pm : PortManager) (draws : List Nat) : Option Nat :=
  match draws with
  | [] => none
  | r :: rest =>
    let port := randomEphemeralPort r
    match pm.lookupListener port with
    | none => some port
    | some _ => pm.NextEmptyEphemeralPort rest

/-! ## Transport manager

Transport IDs (`uuid.UUID`) and transports (`*ManagedTransport` /
`Transport` values) are modelled as `Nat` identifiers; the `transports`
map is an association list with Go-map semantics, where looking up an
absent key yields the nil pointer (`none`).  Calls the manager makes on
its collaborators are reified as events so that their order and targets
can be stated. -/

/-- Go-map lookup in the `transports` map; `none` is the nil pointer. -/
def mapLookup (m : List (Nat × Nat)) (k : Nat) : Option Nat :=
  (m.find? (fun e => e.fst == k)).map (fun e => e.snd)

/-- `delete(tm.transports, id)`. -/
def mapDelete (m : List (Nat × Nat)) (k : Nat) : List (Nat × Nat) :=
  m.filter (fun e => e.fst != k)

/-- A `Close()` call observed during `DeleteTransport`: either on the nil
pointer obtained from a missed lookup, or on an actual transport. -/
inductive CloseEvent
  | closeNil
  | closeTr (t : Nat)
deriving DecidableEq

/-- The receiver of a `tr.Close()` call for the pointer `tr`. -/
def closeCall : Option Nat → CloseEvent
  | none => CloseEvent.closeNil
  | some t => CloseEvent.closeTr t

/-- `Manager.DeleteTransport(id)`: look the transport up, delete it from
the map, call `tr.Close()` unconditionally, and only later run
`if tr != nil { return tr.Close() }`.  Returns the updated map and the
ordered list of `Close()` calls made. -/
def DeleteTransport (transports : List (Nat × Nat)) (id : Nat) :
    List (Nat × Nat) × List CloseEvent :=
  let tr := mapLookup transports id
  let transports' := mapDelete transports id
  let firstClose := closeCall tr
  let laterCloses :=
    match tr with
    | some t => [CloseEvent.closeTr t]
    | none => []
  (transports', firstClose :: laterCloses)

/-- A call `manageTransport`'s error branch makes on the manager or on
the managed transport wrapper. -/
inductive MgrCall
  | deleteTransport (id : Nat)
  | dialTransport (factoryTy : Nat) (remote : Nat) (pub : Bool)
  | updateTransport (id : Nat) (tr : Nat)
deriving DecidableEq

/-- The `case err := <-mTr.errChan` branch of `Manager.manageTransport`:
nothing if the transport is closing; `DeleteTransport(mTr.ID)` if the
transport was accepted; otherwise `dialTransport(factory, remote, public)`
followed by `mTr.updateTransport(tr)` when the re-dial yields a
transport `tr`, or by `DeleteTransport(mTr.ID)` when it fails
(`dialResult = none`).  The calls are listed in program order. -/
def onTransportError (mTrID : Nat) (isClosing accepted : Bool)
    (factoryTy remote : Nat) (pub : Bool) (dialResult : Option Nat) : List MgrCall :=
  if isClosing then []
  else if accepted then [MgrCall.deleteTransport mTrID]
  else
    match dialResult with
    | none => [MgrCall.dialTransport factoryTy remote pub, MgrCall.deleteTransport mTrID]
    | some tr => [MgrCall.dialTransport factoryTy remote pub, MgrCall.updateTransport mTrID tr]

/-! ## Helper lemmas -/

/-- Reassembling the two bytes of `putUint16BE` of a 16-bit value gives it back. -/
lemma beUint16_div_mod (v : Nat) (h : v < 65536) :
    v / 256 % 256 * 256 + v % 256 = v := by omega

/-- `readFrame` on a reader holding exactly a well-formed frame: 5 header
bytes whose declared payload length equals the length of the remaining
bytes. -/
lemma readFrame_cons (b0 b1 b2 b3 b4 : Nat) (rest : List Nat)
    (h : beUint16 b3 b4 = rest.length) :
    readFrame (b0 :: b1 :: b2 :: b3 :: b4 :: rest)
      = some (b0 :: b1 :: b2 :: b3 :: b4 :: rest,
              ⟨b0, beUint16 b1 b2, rest⟩, []) := by
  have htk : List.take headerLen (b0 :: b1 :: b2 :: b3 :: b4 :: rest)
      = [b0, b1, b2, b3, b4] := rfl
  have hdp : List.drop headerLen (b0 :: b1 :: b2 :: b3 :: b4 :: rest) = rest := rfl
  have hpl : framePayLen [b0, b1, b2, b3, b4] = beUint16 b3 b4 := rfl
  have hln : ¬ (b0 :: b1 :: b2 :: b3 :: b4 :: rest).length < headerLen := by
    simp [headerLen]
  have hft : frameType (b0 :: b1 :: b2 :: b3 :: b4 :: rest) = b0 := rfl
  have hti : frameTpID (b0 :: b1 :: b2 :: b3 :: b4 :: rest) = beUint16 b1 b2 := rfl
  have hpy : framePay (b0 :: b1 :: b2 :: b3 :: b4 :: rest) = rest := rfl
  unfold readFrame
  rw [if_neg hln]
  simp only [htk, hdp, hpl, h, lt_irrefl, if_false, List.take_length, List.drop_length]
  simp only [List.cons_append, List.nil_append, hft, hti, hpy]

/-! ## C1: frame round-trip -/

/-- C1: for every frame type `ft`, stream id and payload with
`len(payload) ≤ 65535`, `MakeFrame(ft, id, payload)` has length
`5 + len(payload)`, and decoding it — by `Disassemble` on the frame, or
by `readFrame` on a reader containing exactly those bytes — yields back
exactly `(ft, id, payload)` (with nothing left unread). -/
theorem frame_roundtrip (ft id : Nat) (pay : List Nat)
    (_hft : ft < 256) (hid : id < 65536) (hlen : pay.length ≤ 65535) :
    (MakeFrame ft id pay).length = headerLen + pay.length
    ∧ Disassemble (MakeFrame ft id pay) = (ft, id, pay)
    ∧ readFrame (MakeFrame ft id pay)
        = some (MakeFrame ft id pay, ⟨ft, id, pay⟩, []) := by
  have hMF : MakeFrame ft id pay
      = ft :: id / 256 % 256 :: id % 256
          :: pay.length % 65536 / 256 % 256 :: pay.length % 65536 % 256 :: pay := rfl
  have hid' : beUint16 (id / 256 % 256) (id % 256) = id := by
    unfold beUint16; omega
  refine ⟨?_, ?_, ?_⟩
  · rw [hMF]; simp [headerLen]; omega
  · have h1 : frameType (MakeFrame ft id pay) = ft := rfl
    have h2 : frameTpID (MakeFrame ft id pay)
        = beUint16 (id / 256 % 256) (id % 256) := rfl
    have h3 : framePay (MakeFrame ft id pay) = pay := rfl
    unfold Disassemble
    rw [h1, h2, h3, hid']
  · have hlen' : beUint16 (pay.length % 65536 / 256 % 256) (pay.length % 65536 % 256)
        = pay.length := by unfold beUint16; omega
    rw [hMF, readFrame_cons _ _ _ _ _ _ hlen', hid']

/-- C1 witness: a concrete round-trip of the FWD frame
`MakeFrame(0xA, 0x0102, [0x41, 0x42, 0x43])`. -/
theorem frame_roundtrip_witness :
    (MakeFrame 10 258 [65, 66, 67]).length = headerLen + ([65, 66, 67] : List Nat).length
    ∧ Disassemble (MakeFrame 10 258 [65, 66, 67]) = (10, 258, [65, 66, 67])
    ∧ readFrame (MakeFrame 10 258 [65, 66, 67])
        = some (MakeFrame 10 258 [65, 66, 67], ⟨10, 258, [65, 66, 67]⟩, []) :=
  frame_roundtrip 10 258 [65, 66, 67] (by decide) (by decide) (by decide)

/-- `readFrame` on a reader holding a 5-byte header whose declared
payload length is at most the number of remaining bytes: it consumes
exactly the declared number of payload bytes and leaves the rest. -/
lemma readFrame_cons_le (b0 b1 b2 b3 b4 : Nat) (rest : List Nat)
    (h : beUint16 b3 b4 ≤ rest.length) :
    readFrame (b0 :: b1 :: b2 :: b3 :: b4 :: rest)
      = some (b0 :: b1 :: b2 :: b3 :: b4 :: rest.take (beUint16 b3 b4),
              ⟨b0, beUint16 b1 b2, rest.take (beUint16 b3 b4)⟩,
              rest.drop (beUint16 b3 b4)) := by
  have htk : List.take headerLen (b0 :: b1 :: b2 :: b3 :: b4 :: rest)
      = [b0, b1, b2, b3, b4] := rfl
  have hdp : List.drop headerLen (b0 :: b1 :: b2 :: b3 :: b4 :: rest) = rest := rfl
  have hpl : framePayLen [b0, b1, b2, b3, b4] = beUint16 b3 b4 := rfl
  have hln : ¬ (b0 :: b1 :: b2 :: b3 :: b4 :: rest).length < headerLen := by
    simp [headerLen]
  have hft : frameType (b0 :: b1 :: b2 :: b3 :: b4 :: rest.take (beUint16 b3 b4)) = b0 := rfl
  have hti : frameTpID (b0 :: b1 :: b2 :: b3 :: b4 :: rest.take (beUint16 b3 b4))
      = beUint16 b1 b2 := rfl
  have hpy : framePay (b0 :: b1 :: b2 :: b3 :: b4 :: rest.take (beUint16 b3 b4))
      = rest.take (beUint16 b3 b4) := rfl
  unfold readFrame
  rw [if_neg hln]
  simp only [htk, hdp, hpl]
  rw [if_neg (by omega : ¬ rest.length < beUint16 b3 b4)]
  simp only [List.cons_append, List.nil_append, hft, hti, hpy]

/-! ## C9: `MakeFrame` truncates the declared length of oversized payloads -/

/-- C9: for every payload longer than 65535 bytes, `MakeFrame` still
copies the full payload into a frame of length `5 + len(payload)`, but
the header's declared `PayLen` is `len(payload) mod 2^16` — which
disagrees with the actual payload length — and `readFrame` on the frame
recovers only the truncated prefix, so the round-trip fails. -/
theorem makeFrame_truncates (ft id : Nat) (pay : List Nat)
    (h : 65535 < pay.length) :
    (MakeFrame ft id pay).length = headerLen + pay.length
    ∧ framePay (MakeFrame ft id pay) = pay
    ∧ framePayLen (MakeFrame ft id pay) = pay.length % 65536
    ∧ framePayLen (MakeFrame ft id pay) ≠ pay.length
    ∧ ∀ f df rest, readFrame (MakeFrame ft id pay) = some (f, df, rest) →
        df.Pay = pay.take (pay.length % 65536) ∧ df.Pay ≠ pay := by
  have hMF : MakeFrame ft id pay
      = ft :: id / 256 % 256 :: id % 256
          :: pay.length % 65536 / 256 % 256 :: pay.length % 65536 % 256 :: pay := rfl
  have hbe : beUint16 (pay.length % 65536 / 256 % 256) (pay.length % 65536 % 256)
      = pay.length % 65536 := by unfold beUint16; omega
  have hple : framePayLen (MakeFrame ft id pay)
      = beUint16 (pay.length % 65536 / 256 % 256) (pay.length % 65536 % 256) := rfl
  refine ⟨?_, rfl, ?_, ?_, ?_⟩
  · rw [hMF]; simp [headerLen]; omega
  · rw [hple, hbe]
  · rw [hple, hbe]; omega
  · intro f df rest hread
    rw [hMF, readFrame_cons_le _ _ _ _ _ _ (by rw [hbe]; omega)] at hread
    rw [hbe] at hread
    simp only [Option.some.injEq, Prod.mk.injEq] at hread
    obtain ⟨-, hdf, -⟩ := hread
    have hdfPay : df.Pay = pay.take (pay.length % 65536) := by rw [← hdf]
    refine ⟨hdfPay, ?_⟩
    intro hcontra
    rw [hdfPay] at hcontra
    have hlenEq := congrArg List.length hcontra
    rw [List.length_take] at hlenEq
    omega

/-- C9 witness: a 65536-byte payload yields a declared `PayLen` of 0 but
a frame carrying all 65536 bytes. -/
theorem makeFrame_truncates_witness :
    (MakeFrame 10 1 (List.replicate 65536 0)).length
        = headerLen + (List.replicate 65536 (0 : Nat)).length
    ∧ framePay (MakeFrame 10 1 (List.replicate 65536 0)) = List.replicate 65536 0
    ∧ framePayLen (MakeFrame 10 1 (List.replicate 65536 0))
        = (List.replicate 65536 (0 : Nat)).length % 65536
    ∧ framePayLen (MakeFrame 10 1 (List.replicate 65536 0))
        ≠ (List.replicate 65536 (0 : Nat)).length
    ∧ ∀ f df rest,
        readFrame (MakeFrame 10 1 (List.replicate 65536 0)) = some (f, df, rest) →
        df.Pay = (List.replicate 65536 (0 : Nat)).take
            ((List.replicate 65536 (0 : Nat)).length % 65536)
        ∧ df.Pay ≠ List.replicate 65536 0 :=
  makeFrame_truncates 10 1 (List.replicate 65536 0)
    (by rw [List.length_replicate]; omega)

/-! ## C6: ACK payload encoding and decoding -/

/-- C6: `writeAckFrame(w, id, offset)` emits an ACK frame whose payload
is exactly the 2-byte big-endian encoding of `offset`;
`disassembleAckPayload` returns the big-endian `uint16` of every 2-byte
payload (so it round-trips every written offset) and the error
`invalid ACK payload size` for every payload of any other length. -/
theorem ack_payload_spec (id offset : Nat) (hoff : offset < 65536) :
    frameType (writeAckFrame id offset) = AckType
    ∧ framePay (writeAckFrame id offset) = putUint16BE offset
    ∧ disassembleAckPayload (framePay (writeAckFrame id offset)) = Except.ok offset
    ∧ (∀ p : List Nat, p.length = 2 →
        disassembleAckPayload p = Except.ok (beUint16 (p.getD 0 0) (p.getD 1 0)))
    ∧ (∀ p : List Nat, p.length ≠ 2 →
        disassembleAckPayload p = Except.error "invalid ACK payload size") := by
  have hbe : beUint16 (offset / 256 % 256) (offset % 256) = offset := by
    unfold beUint16; omega
  refine ⟨rfl, rfl, ?_, ?_, ?_⟩
  · have hda : disassembleAckPayload (framePay (writeAckFrame id offset))
        = Except.ok (beUint16 (offset / 256 % 256) (offset % 256)) := rfl
    rw [hda, hbe]
  · intro p hp
    unfold disassembleAckPayload
    rw [if_neg (by omega : ¬ p.length ≠ 2)]
  · intro p hp
    unfold disassembleAckPayload
    rw [if_pos hp]

/-- C6 witness: `writeAckFrame(w, 7, 0xBEEF)` has ACK type and payload
`BE EF`, which decodes back to `0xBEEF`; the 1-byte payload `BE` is
rejected. -/
theorem ack_payload_spec_witness :
    frameType (writeAckFrame 7 48879) = AckType
    ∧ framePay (writeAckFrame 7 48879) = putUint16BE 48879
    ∧ disassembleAckPayload (framePay (writeAckFrame 7 48879)) = Except.ok 48879
    ∧ (∀ p : List Nat, p.length = 2 →
        disassembleAckPayload p = Except.ok (beUint16 (p.getD 0 0) (p.getD 1 0)))
    ∧ (∀ p : List Nat, p.length ≠ 2 →
        disassembleAckPayload p = Except.error "invalid ACK payload size") :=
  ack_payload_spec 7 48879 (by decide)

/-- Length of an `UNKNOWN:`-prefixed string. -/
lemma length_unknown_append (s : String) :
    ("UNKNOWN:" ++ s).length = 8 + s.length := by
  rw [String.length_append]
  have h8 : "UNKNOWN:".length = 8 := rfl
  rw [h8]

/-! ## C10: `FrameType.String` name table -/

/-- C10: `FrameType.String` returns the name of each defined type,
returns `UNKNOWN:<n>` exactly for the values ≥ 12, and returns the
empty string for the undefined values 4 through 9 inside the sparse
name table. -/
theorem frameTypeString_spec :
    (FrameTypeString OkType = "OK" ∧ FrameTypeString RequestType = "REQUEST"
      ∧ FrameTypeString AcceptType = "ACCEPT" ∧ FrameTypeString CloseType = "CLOSE"
      ∧ FrameTypeString FwdType = "FWD" ∧ FrameTypeString AckType = "ACK")
    ∧ (∀ ft, 12 ≤ ft → FrameTypeString ft = "UNKNOWN:" ++ toString ft)
    ∧ (∀ ft, 4 ≤ ft → ft ≤ 9 → FrameTypeString ft = "")
    ∧ (∀ ft, ft < 12 → ∀ s : String, FrameTypeString ft ≠ "UNKNOWN:" ++ s) := by
  refine ⟨⟨rfl, rfl, rfl, rfl, rfl, rfl⟩, ?_, ?_, ?_⟩
  · intro ft h
    unfold FrameTypeString
    rw [if_pos]
    have hlen : frameTypeNames.length = 12 := rfl
    omega
  · intro ft h4 h9
    interval_cases ft <;> rfl
  · intro ft hlt s hcontra
    have hle : (FrameTypeString ft).length ≤ 7 := by
      interval_cases ft <;> decide
    have hl := congrArg String.length hcontra
    rw [length_unknown_append] at hl
    omega

/-- C10 witness: the first out-of-table value 12 renders as `UNKNOWN:12`. -/
theorem frameTypeString_spec_witness :
    FrameTypeString 12 = "UNKNOWN:" ++ toString 12 :=
  frameTypeString_spec.2.1 12 (by omega)

/-! ## C2: `SessionDialRequest.Verify` case analysis -/

/-- C2: `Verify(lastTimestamp)` returns `ErrDialReqInvalidSrcPK` when
`SrcPK` is null; `ErrDialReqInvalidDstPK` when `SrcPK` is non-null and
`DstPK` is null; `ErrDialReqInvalidTimestamp` when both keys are
non-null and `Timestamp ≤ lastTimestamp` (in particular re-verifying
against `lastTimestamp = Timestamp` is rejected); `ErrDialReqInvalidSig`
when keys and timestamp are valid but the signature does not verify
under `SrcPK` over the gob encoding with `Sig` zeroed; and `nil`
(`none`) otherwise — for every abstract gob encoding and signature
verifier. -/
theorem sessionDialRequest_verify_cases
    (gob : SessionDialRequest → List Nat)
    (verifyPK : PubKey → Sig → List Nat → Bool)
    (dr : SessionDialRequest) (lastTimestamp : Int) :
    (dr.SrcPK.Null = true →
      SessionDialRequest.Verify gob verifyPK dr lastTimestamp
        = some DialReqError.ErrDialReqInvalidSrcPK)
    ∧ (dr.SrcPK.Null = false → dr.DstPK.Null = true →
      SessionDialRequest.Verify gob verifyPK dr lastTimestamp
        = some DialReqError.ErrDialReqInvalidDstPK)
    ∧ (dr.SrcPK.Null = false → dr.DstPK.Null = false →
        dr.Timestamp ≤ lastTimestamp →
      SessionDialRequest.Verify gob verifyPK dr lastTimestamp
        = some DialReqError.ErrDialReqInvalidTimestamp)
    ∧ (dr.SrcPK.Null = false → dr.DstPK.Null = false →
      SessionDialRequest.Verify gob verifyPK dr dr.Timestamp
        = some DialReqError.ErrDialReqInvalidTimestamp)
    ∧ (dr.SrcPK.Null = false → dr.DstPK.Null = false →
        lastTimestamp < dr.Timestamp →
        verifyPK dr.SrcPK dr.Sig (gob { dr with Sig := nullSig }) = false →
      SessionDialRequest.Verify gob verifyPK dr lastTimestamp
        = some DialReqError.ErrDialReqInvalidSig)
    ∧ (dr.SrcPK.Null = false → dr.DstPK.Null = false →
        lastTimestamp < dr.Timestamp →
        verifyPK dr.SrcPK dr.Sig (gob { dr with Sig := nullSig }) = true →
      SessionDialRequest.Verify gob verifyPK dr lastTimestamp = none) := by
  refine ⟨?_, ?_, ?_, ?_, ?_, ?_⟩
  · intro h1
    simp [SessionDialRequest.Verify, h1]
  · intro h1 h2
    simp [SessionDialRequest.Verify, h1, h2]
  · intro h1 h2 h3
    simp [SessionDialRequest.Verify, h1, h2, h3]
  · intro h1 h2
    simp [SessionDialRequest.Verify, h1, h2]
  · intro h1 h2 h3 h4
    simp [SessionDialRequest.Verify, h1, h2, h4, not_le.mpr h3]
  · intro h1 h2 h3 h4
    simp [SessionDialRequest.Verify, h1, h2, h4, not_le.mpr h3]

/-- C2 witness: a request with a null source key is rejected with
`ErrDialReqInvalidSrcPK`. -/
theorem sessionDialRequest_verify_cases_witness :
    SessionDialRequest.Verify (fun _ => []) (fun _ _ _ => true)
      { Timestamp := 1, SrcPK := nullPubKey, DstPK := nullPubKey, Sig := nullSig } 0
      = some DialReqError.ErrDialReqInvalidSrcPK :=
  (sessionDialRequest_verify_cases (fun _ => []) (fun _ _ _ => true)
    { Timestamp := 1, SrcPK := nullPubKey, DstPK := nullPubKey, Sig := nullSig } 0).1
    (by decide)

/-! ## C3: `Hash` ignores the `Sig` field -/

/-- C3: for every pair of `SessionDialRequest`s (and likewise
`StreamDialRequest`s) whose fields are equal except possibly `Sig`,
`Hash()` returns identical values; equivalently
`Hash(dr) = Hash(dr with Sig zeroed)` — for every abstract SHA256 and
gob encoding. -/
theorem hash_ignores_sig (sha : List Nat → List Nat)
    (gob : SessionDialRequest → List Nat) (gobS : StreamDialRequest → List Nat)
    (dr1 dr2 : SessionDialRequest) (sr1 sr2 : StreamDialRequest) :
    (dr1.Timestamp = dr2.Timestamp → dr1.SrcPK = dr2.SrcPK → dr1.DstPK = dr2.DstPK →
      SessionDialRequest.Hash sha gob dr1 = SessionDialRequest.Hash sha gob dr2)
    ∧ SessionDialRequest.Hash sha gob dr1
        = SessionDialRequest.Hash sha gob { dr1 with Sig := nullSig }
    ∧ (sr1.Timestamp = sr2.Timestamp → sr1.SrcAddr = sr2.SrcAddr →
        sr1.DstAddr = sr2.DstAddr → sr1.NoiseMsg = sr2.NoiseMsg →
      StreamDialRequest.Hash sha gobS sr1 = StreamDialRequest.Hash sha gobS sr2)
    ∧ StreamDialRequest.Hash sha gobS sr1
        = StreamDialRequest.Hash sha gobS { sr1 with Sig := nullSig } := by
  obtain ⟨t1, s1, d1, g1⟩ := dr1
  obtain ⟨t2, s2, d2, g2⟩ := dr2
  obtain ⟨u1, a1, b1, n1, m1⟩ := sr1
  obtain ⟨u2, a2, b2, n2, m2⟩ := sr2
  refine ⟨?_, rfl, ?_, rfl⟩
  · intro h1 h2 h3
    simp only at h1 h2 h3
    subst h1; subst h2; subst h3
    rfl
  · intro h1 h2 h3 h4
    simp only at h1 h2 h3 h4
    subst h1; subst h2; subst h3; subst h4
    rfl

/-- C3 witness: two session dial requests differing only in `Sig` hash
identically even under a gob encoding that depends on `Sig`. -/
theorem hash_ignores_sig_witness :
    SessionDialRequest.Hash (fun bs => bs) (fun r => r.Sig.bytes)
      { Timestamp := 1, SrcPK := nullPubKey, DstPK := nullPubKey, Sig := ⟨[1]⟩ }
      = SessionDialRequest.Hash (fun bs => bs) (fun r => r.Sig.bytes)
      { Timestamp := 1, SrcPK := nullPubKey, DstPK := nullPubKey, Sig := ⟨[2]⟩ } :=
  (hash_ignores_sig (fun bs => bs) (fun r => r.Sig.bytes) (fun r => r.Sig.bytes)
    { Timestamp := 1, SrcPK := nullPubKey, DstPK := nullPubKey, Sig := ⟨[1]⟩ }
    { Timestamp := 1, SrcPK := nullPubKey, DstPK := nullPubKey, Sig := ⟨[2]⟩ }
    { Timestamp := 0, SrcAddr := ⟨nullPubKey, 0⟩, DstAddr := ⟨nullPubKey, 0⟩,
      NoiseMsg := [], Sig := nullSig }
    { Timestamp := 0, SrcAddr := ⟨nullPubKey, 0⟩, DstAddr := ⟨nullPubKey, 0⟩,
      NoiseMsg := [], Sig := nullSig }).1 rfl rfl rfl

/-! ## C4: stream ID parity -/

/-- Whatever `randID` returns has the parity selected by `initiator`. -/
lemma randID_parity_eq (initiator : Bool) (draws : List (Nat × Nat)) (id : Nat)
    (h : randID initiator draws = some id) : (id % 2 == 0) = initiator := by
  induction draws with
  | nil => simp [randID] at h
  | cons d rest ih =>
    obtain ⟨b0, b1⟩ := d
    simp only [randID] at h
    split at h
    next hc =>
      obtain rfl := Option.some.inj h
      cases initiator <;> simp_all
    next => exact ih h

/-- C4: every id from `randID(true)` is even, every id from
`randID(false)` is odd, and `isInitiatorID(id)` holds iff `id % 2 == 0`
— so `isInitiatorID` is true of every `randID(true)` result and false of
every `randID(false)` result. -/
theorem randID_isInitiatorID_parity (draws : List (Nat × Nat)) (id n : Nat) :
    (randID true draws = some id → id % 2 = 0 ∧ isInitiatorID id = true)
    ∧ (randID false draws = some id → id % 2 = 1 ∧ isInitiatorID id = false)
    ∧ (isInitiatorID n = true ↔ n % 2 = 0) := by
  refine ⟨?_, ?_, ?_⟩
  · intro h
    have hp := randID_parity_eq true draws id h
    have hmod : id % 2 = 0 := by simpa using hp
    exact ⟨hmod, hp⟩
  · intro h
    have hp := randID_parity_eq false draws id h
    have hmod : ¬ id % 2 = 0 := by simpa using hp
    exact ⟨by omega, hp⟩
  · simp [isInitiatorID]

/-- C4 witness: the draw `(0, 2)` gives the even id 2 to an initiator. -/
theorem randID_isInitiatorID_parity_witness :
    2 % 2 = 0 ∧ isInitiatorID 2 = true :=
  (randID_isInitiatorID_parity [(0, 2)] 2 0).1 (by decide)

/-! ## C5: ephemeral port allocation -/

/-- Every port `NextEmptyEphemeralPort` returns is in the ephemeral
range and unregistered. -/
lemma nextEmptyEphemeralPort_spec (pm : PortManager) (draws : List Nat) (p : Nat)
    (h : pm.NextEmptyEphemeralPort draws = some p) :
    firstEphemeralPort ≤ p ∧ p < lastEphemeralPort ∧ pm.lookupListener p = none := by
  induction draws with
  | nil => simp [PortManager.NextEmptyEphemeralPort] at h
  | cons r rest ih =>
    simp only [PortManager.NextEmptyEphemeralPort] at h
    cases hlk : pm.lookupListener (randomEphemeralPort r) with
    | none =>
      rw [hlk] at h
      obtain rfl := Option.some.inj h
      refine ⟨?_, ?_, hlk⟩ <;>
        simp only [randomEphemeralPort, firstEphemeralPort, lastEphemeralPort] <;> omega
    | some l =>
      rw [hlk] at h
      exact ih h

/-- Looking up the port just added finds the listener just added. -/
lemma lookupListener_addListener (pm : PortManager) (l : Listener) (q : Nat) :
    (pm.AddListener l q).lookupListener q = some l := by
  simp [PortManager.AddListener, PortManager.lookupListener, List.find?_cons]

/-- C5: every port returned by `NextEmptyEphemeralPort` lies in
`[49152, 65535)` and is not registered in the listeners map; in
particular after `AddListener(l, p)` (with no intervening removal)
`NextEmptyEphemeralPort` never returns `p`. -/
theorem port_allocation_spec (pm : PortManager) (draws : List Nat) (p : Nat)
    (l : Listener) (q : Nat) :
    (pm.NextEmptyEphemeralPort draws = some p →
      firstEphemeralPort ≤ p ∧ p < lastEphemeralPort ∧ pm.lookupListener p = none)
    ∧ (pm.AddListener l q).NextEmptyEphemeralPort draws ≠ some q := by
  refine ⟨nextEmptyEphemeralPort_spec pm draws p, ?_⟩
  intro h
  have hspec := nextEmptyEphemeralPort_spec (pm.AddListener l q) draws q h
  have hlk := lookupListener_addListener pm l q
  rw [hspec.2.2] at hlk
  exact Option.noConfusion hlk

/-- C5 witness: on an empty port manager, the draw 0 yields port 49152,
which is in range and unregistered. -/
theorem port_allocation_spec_witness :
    firstEphemeralPort ≤ 49152 ∧ 49152 < lastEphemeralPort
    ∧ PortManager.lookupListener ⟨[]⟩ 49152 = none :=
  (port_allocation_spec ⟨[]⟩ [0] 49152 ⟨0⟩ 0).1 (by decide)

/-! ## C7: `DeleteTransport` closes before the nil check -/

/-- After deleting a key from the map, looking it up misses. -/
lemma mapLookup_mapDelete (m : List (Nat × Nat)) (k : Nat) :
    mapLookup (mapDelete m k) k = none := by
  induction m with
  | nil => rfl
  | cons e rest ih =>
    obtain ⟨a, b⟩ := e
    by_cases hk : a = k
    · simp only [mapDelete, List.filter_cons, hk] at ih ⊢
      simp
      exact ih
    · simp only [mapDelete, mapLookup, List.filter_cons, List.find?_cons, hk] at ih ⊢
      simp [hk, ih]

/-- C7: `DeleteTransport(id)` removes the entry from the `transports`
map and then invokes `tr.Close()` unconditionally, before the
`if tr != nil` guard: for an absent `id` the first `Close` lands on the
nil transport, and for a present `id` `Close` is called twice on the
same transport. -/
theorem deleteTransport_closes_before_nil_check
    (transports : List (Nat × Nat)) (id : Nat) :
    ((DeleteTransport transports id).1 = mapDelete transports id
      ∧ mapLookup (DeleteTransport transports id).1 id = none)
    ∧ (mapLookup transports id = none →
        (DeleteTransport transports id).2 = [CloseEvent.closeNil])
    ∧ (∀ t, mapLookup transports id = some t →
        (DeleteTransport transports id).2
          = [CloseEvent.closeTr t, CloseEvent.closeTr t]) := by
  refine ⟨⟨rfl, mapLookup_mapDelete transports id⟩, ?_, ?_⟩
  · intro h
    simp [DeleteTransport, h, closeCall]
  · intro t h
    simp [DeleteTransport, h, closeCall]

/-- C7 witness: deleting an id absent from the map calls `Close()` on
the nil transport. -/
theorem deleteTransport_closes_before_nil_check_witness :
    (DeleteTransport [] 7).2 = [CloseEvent.closeNil] :=
  (deleteTransport_closes_before_nil_check [] 7).2.1 rfl

/-! ## C8: re-dial on initiator, delete on responder -/

/-- C8: in `manageTransport`, when an error arrives while the transport
is not closing: if the transport was accepted (responder side) the
worker deletes it and never dials; if it was dialed (initiator side) the
worker re-dials the same remote with the same factory and public flag,
then on success updates the same managed wrapper (same ID) with the new
transport, and deletes the transport only when the re-dial failed. -/
theorem manageTransport_error_branch (mTrID factoryTy remote : Nat) (pub : Bool)
    (dialResult : Option Nat) (accepted : Bool) :
    (accepted = true →
      onTransportError mTrID false accepted factoryTy remote pub dialResult
        = [MgrCall.deleteTransport mTrID]
      ∧ ∀ f r p, MgrCall.dialTransport f r p
          ∉ onTransportError mTrID false accepted factoryTy remote pub dialResult)
    ∧ (accepted = false →
      (∀ tr, dialResult = some tr →
        onTransportError mTrID false accepted factoryTy remote pub dialResult
          = [MgrCall.dialTransport factoryTy remote pub,
             MgrCall.updateTransport mTrID tr])
      ∧ (dialResult = none →
        onTransportError mTrID false accepted factoryTy remote pub dialResult
          = [MgrCall.dialTransport factoryTy remote pub,
             MgrCall.deleteTransport mTrID])) := by
  constructor
  · intro h
    subst h
    refine ⟨rfl, ?_⟩
    intro f r p hmem
    simp [onTransportError] at hmem
  · intro h
    subst h
    constructor
    · intro tr htr
      subst htr
      rfl
    · intro hnone
      subst hnone
      rfl

/-- C8 witness: an accepted transport's error leads to exactly one
`DeleteTransport` call and no dial. -/
theorem manageTransport_error_branch_witness :
    onTransportError 3 false true 1 2 true (some 9) = [MgrCall.deleteTransport 3]
    ∧ ∀ f r p, MgrCall.dialTransport f r p
        ∉ onTransportError 3 false true 1 2 true (some 9) :=
  (manageTransport_error_branch 3 1 2 true (some 9) true).1 rfl

end Dmsg
